import Mathlib

/-!
Shallow embedding of the UltraThink orchestrator
(`ultrathink-example.py`): data model, the four topology strategies,
the simulated agent executor, the synthesizer and the orchestration
pipeline, followed by theorems settling the frozen claims about them.

Conventions of the embedding:
* Python dicts holding fixed keys become Lean structures.
* The float `confidence_score` is modelled exactly as a rational.
* A Python runtime error (`ZeroDivisionError`, `IndexError`) is
  modelled by `Option`, the failing call returning `none`.
* `async`/`await` sequencing with a pure executor is modelled by
  direct function application; `asyncio.gather` is additionally
  modelled by an explicit completion-order scheduler (`fillSlots`,
  `collectSlots`) so that order-independence can be stated.
* Wall-clock data (`datetime.now()` timestamps, `asyncio.sleep`
  latency) is not part of the model.
-/

/-- One `{"type": ..., "content": ...}` artifact entry produced by an agent. -/
structure Artifact where
  type : String
  content : String
deriving DecidableEq

/-- The result dict returned by `simulate_agent_execution`. -/
structure ExecResult where
  agent : String
  task : String
  result : String
  execution_time : ℚ
  status : String
  artifacts : List Artifact
deriving DecidableEq

/-- A subtask dict as produced by `analyze_request`: an agent name, a task
description, and the `previous_result` key that `sequential_thinking` may
attach after execution (absent at creation, modelled as `none`). -/
structure Subtask where
  agent : String
  task : String
  previous_result : Option ExecResult
deriving DecidableEq

/-- The analysis dict returned by `analyze_request`. -/
structure AnalysisRecord where
  request : String
  complexity : Nat
  required_agents : List String
  thinking_pattern : String
  subtasks : List Subtask
deriving DecidableEq

/-- One entry of `synthesis["key_insights"]`. -/
structure Insight where
  source : String
  insight : String
  artifacts : List Artifact
deriving DecidableEq

/-- The synthesis dict returned by `synthesize_results`. -/
structure SynthesisRecord where
  summary : String
  key_insights : List Insight
  recommendations : List String
  confidence_score : ℚ
deriving DecidableEq

/-- The final dict returned by `execute_ultrathink` (the wall-clock
`timestamp` field is outside the model). -/
structure OrchestrationOutcome where
  request : String
  analysis : AnalysisRecord
  results : List ExecResult
  synthesis : SynthesisRecord
deriving DecidableEq

/-- Bool test that `pat` occurs at the start of `s` (character lists). -/
def subAt : List Char → List Char → Bool
  | [], _ => true
  | _ :: _, [] => false
  | a :: as, b :: bs => a == b && subAt as bs

/-- Bool test that `pat` occurs somewhere in `s` (character lists):
embedding of the Python substring test `pat in s`. -/
def hasSubChars : List Char → List Char → Bool
  | s, pat =>
    match s with
    | [] => pat.isEmpty
    | _ :: rest => subAt pat s || hasSubChars rest pat

/-- Embedding of Python `str.lower()` as a character list (ASCII case
folding; the keyword letters that matter here are already lowercase). -/
def pyLower (s : String) : List Char :=
  s.toList.map Char.toLower

/-- Embedding of Python `pat in s` applied to a lowered character list. -/
def hasSub (sChars : List Char) (pat : String) : Bool :=
  hasSubChars sChars pat.toList

/-- Helper for `wordCount`: counts the maximal runs of non-whitespace
characters, carrying whether the previous character was inside a word. -/
def wordsAux : List Char → Bool → Nat
  | [], _ => 0
  | c :: rest, inWord =>
    if c.isWhitespace then wordsAux rest false
    else (if inWord then 0 else 1) + wordsAux rest true

/-- Embedding of Python `len(request.split())`: the number of maximal
whitespace-separated words. -/
def wordCount (s : String) : Nat :=
  wordsAux s.toList false

/-- Embedding of `UltraThinkOrchestrator._calculate_complexity`. -/
def calculate_complexity (request : String) : Nat :=
  let word_count := wordCount request
  if word_count < 10 then 3
  else if word_count < 30 then 5
  else if word_count < 50 then 7
  else 9

/-- Embedding of `UltraThinkOrchestrator.analyze_request`. The source
builds a default analysis dict and then overwrites three fields when the
lowered request contains both keywords; the two outcomes are written here
as the two branches of the conditional. -/
def analyze_request (user_request : String) : AnalysisRecord :=
  if hasSub (pyLower user_request) "análise" && hasSub (pyLower user_request) "tendências" then
    { request := user_request
      complexity := calculate_complexity user_request
      required_agents := ["TrendingAgent", "AnalyzerAgent", "SynthesisAgent"]
      thinking_pattern := "parallel"
      subtasks := [⟨"TrendingAgent", "Buscar tendências atuais", none⟩,
                   ⟨"AnalyzerAgent", "Analisar dados quantitativos", none⟩,
                   ⟨"SynthesisAgent", "Sintetizar insights", none⟩] }
  else
    { request := user_request
      complexity := calculate_complexity user_request
      required_agents := []
      thinking_pattern := "sequential"
      subtasks := [] }

/-- State-passing embedding of the method `analyze_request` seen as an
operation on the orchestrator object: the method body reads only its
`user_request` argument (plus the pure helper `_calculate_complexity`)
and never reads or writes `self.agents_registry`, so the registry state
is returned unchanged. -/
def analyze_request_st (registry : List (String × String)) (user_request : String) :
    AnalysisRecord × List (String × String) :=
  (analyze_request user_request, registry)

/-- Embedding of `UltraThinkOrchestrator.simulate_agent_execution`: a
fixed-latency simulated success (latency not modelled). -/
def simulate_agent_execution (subtask : Subtask) : ExecResult :=
  { agent := subtask.agent
    task := subtask.task
    result := "Resultado simulado de " ++ subtask.agent ++ " para \x27" ++ subtask.task ++ "\x27"
    execution_time := 1/2
    status := "completed"
    artifacts := [⟨"text", "Análise detalhada realizada por " ++ subtask.agent⟩] }

/-- What one run of `sequential_thinking` produces, in full: the returned
results, the subtask dicts as they stand after the loop (with whatever
`previous_result` the loop attached), and the value each subtask had at
the moment it was passed to the executor. -/
structure SeqRun where
  results : List ExecResult
  finalSubtasks : List Subtask
  executedInputs : List Subtask
deriving DecidableEq

/-- Embedding of `UltraThinkOrchestrator.sequential_thinking`. The loop
body executes the current subtask, appends the result, and then runs
`subtask["previous_result"] = results[-1]`, i.e. it attaches the result
just produced to the dict of the subtask that was *just executed* (the
loop variable), after its execution; the `if results:` guard is always
true at that point since a result was just appended. `executedInputs`
records each subtask exactly as the executor received it. -/
def sequential_thinking (execA : Subtask → ExecResult) : List Subtask → SeqRun
  | [] => ⟨[], [], []⟩
  | st :: rest =>
    let result := execA st
    let mutated := { st with previous_result := some result }
    let r := sequential_thinking execA rest
    ⟨result :: r.results, mutated :: r.finalSubtasks, st :: r.executedInputs⟩

/-- Embedding of `UltraThinkOrchestrator.parallel_thinking`:
`asyncio.gather` awaits every launched task and returns the results in
the input order, so with a pure executor the run is a map. -/
def parallel_thinking (execA : Subtask → ExecResult) (subtasks : List Subtask) :
    List ExecResult :=
  subtasks.map execA

/-- Completion-order model of the event loop under `asyncio.gather`: each
event in `order` is the index of a task finishing, at which point its
result is stored in its own slot. Pure executor, so a slot written twice
receives the same value. -/
def fillSlots (execA : Subtask → ExecResult) (subtasks : List Subtask)
    (slots : Nat → Option ExecResult) : List Nat → (Nat → Option ExecResult)
  | [] => slots
  | i :: rest =>
    fillSlots execA subtasks
      (fun j => if j = i then some (execA (subtasks.getD i ⟨"", "", none⟩)) else slots j) rest

/-- Reading the slots back in input-index order, as `asyncio.gather` does;
`none` if some task never completed. -/
def collectSlots (slots : Nat → Option ExecResult) : List Nat → Option (List ExecResult)
  | [] => some []
  | i :: rest =>
    match slots i, collectSlots slots rest with
    | some r, some rs => some (r :: rs)
    | _, _ => none

/-- The whole completion-order model: run the events of `order`, then
collect slots `0..n-1` in input order. -/
def gatherModel (execA : Subtask → ExecResult) (subtasks : List Subtask)
    (order : List Nat) : Option (List ExecResult) :=
  collectSlots (fillSlots execA subtasks (fun _ => none) order)
    (List.range subtasks.length)

/-- Embedding of `UltraThinkOrchestrator.hierarchical_thinking`:
`subtasks[0]` on an empty list raises `IndexError`, modelled as `none`;
otherwise the head is executed alone and the tail goes through
`parallel_thinking`, the head result prepended. -/
def hierarchical_thinking (execA : Subtask → ExecResult) :
    List Subtask → Option (List ExecResult)
  | [] => none
  | main_agent :: sub_agents =>
    some (execA main_agent :: parallel_thinking execA sub_agents)

/-- The distinct agent names of a run, the keys of the
`communication_channels` dict built by `mesh_thinking` (one queue per
distinct `subtask["agent"]`; re-registering a name just resets its empty
queue before any execution). The Python dict keeps keys in first-insertion
order; only membership and distinctness of this key set are observable
below, so the key list is embedded as the dedup of the agent names. -/
def channelNames (subtasks : List Subtask) : List String :=
  (subtasks.map (fun st => st.agent)).dedup

/-- Embedding of the broadcast loop inside `mesh_thinking`: walk the
channel entries and `put` the result on every channel whose owner differs
from the producing agent. -/
def putOthers (producer : String) (r : ExecResult) :
    List String → (String → List ExecResult) → (String → List ExecResult)
  | [], ch => ch
  | a :: rest, ch =>
    putOthers producer r rest
      (fun b => if b = a ∧ a ≠ producer then ch b ++ [r] else ch b)

/-- The main loop of `mesh_thinking`: execute each subtask in order,
broadcast its result to every other agent channel, collect the results. -/
def meshLoop (execA : Subtask → ExecResult) (names : List String) :
    List Subtask → (String → List ExecResult) → List ExecResult × (String → List ExecResult)
  | [], ch => ([], ch)
  | st :: rest, ch =>
    let result := execA st
    let ch1 := putOthers st.agent result names ch
    let r := meshLoop execA names rest ch1
    (result :: r.1, r.2)

/-- Embedding of `UltraThinkOrchestrator.mesh_thinking`: returns the
result list and the final contents of every per-agent inbound channel
(a name that owns no channel maps to the empty queue). -/
def mesh_thinking (execA : Subtask → ExecResult) (subtasks : List Subtask) :
    List ExecResult × (String → List ExecResult) :=
  meshLoop execA (channelNames subtasks) subtasks (fun _ => [])

/-- Embedding of `UltraThinkOrchestrator.synthesize_results`. On an empty
result list the line `successful_agents / len(results)` raises
`ZeroDivisionError`, modelled as `none`. -/
def synthesize_results (results : List ExecResult) : Option SynthesisRecord :=
  if results.length = 0 then none
  else
    let key_insights := results.map (fun r =>
      { source := r.agent, insight := r.result, artifacts := r.artifacts : Insight })
    let successful_agents := results.countP (fun r => r.status == "completed")
    let confidence_score : ℚ := (successful_agents : ℚ) / (results.length : ℚ)
    let recommendations :=
      if confidence_score > 8/10 then
        ["Alta confiança nos resultados - prosseguir com implementação"]
      else
        ["Confiança moderada - considerar análise adicional"]
    some { summary := "Análise completa realizada com sucesso"
           key_insights := key_insights
           recommendations := recommendations
           confidence_score := confidence_score }

/-- Embedding of the `thinking_patterns` dispatch in `execute_ultrathink`:
the dict maps the four pattern strings to the strategy methods and
`.get(pattern, sequential_thinking)` falls back to sequential; strategies
run with the executor `simulate_agent_execution`. -/
def run_pattern (pattern : String) (subtasks : List Subtask) : Option (List ExecResult) :=
  if pattern = "sequential" then some (sequential_thinking simulate_agent_execution subtasks).results
  else if pattern = "parallel" then some (parallel_thinking simulate_agent_execution subtasks)
  else if pattern = "hierarchical" then hierarchical_thinking simulate_agent_execution subtasks
  else if pattern = "mesh" then some (mesh_thinking simulate_agent_execution subtasks).1
  else some (sequential_thinking simulate_agent_execution subtasks).results

/-- Embedding of `UltraThinkOrchestrator.execute_ultrathink`: analysis,
pattern dispatch, execution, synthesis; any modelled runtime error in a
stage propagates as `none` (the Python exception unwinding the call). -/
def execute_ultrathink (user_request : String) : Option OrchestrationOutcome :=
  let analysis := analyze_request user_request
  match run_pattern analysis.thinking_pattern analysis.subtasks with
  | none => none
  | some results =>
    match synthesize_results results with
    | none => none
    | some synthesis =>
      some { request := user_request, analysis := analysis
             results := results, synthesis := synthesis }

/-! ## Claim theorems -/

/-- C1: the claim says that under the Sequential strategy the result of
each subtask is attached as `previous_result` on the NEXT subtask before
that next subtask executes, so in `[A, B]` the input B sees at execution
time carries A''s result. The code instead runs
`subtask["previous_result"] = results[-1]` on the subtask it has just
executed: at the concrete run `[A, B]`, B''s input at execution time has
`previous_result = none` (not A''s result), while A''s own dict is the one
that ends up carrying A''s result. -/
theorem sequential_prev_result_misattached :
    ((sequential_thinking simulate_agent_execution
        [⟨"A", "task A", none⟩, ⟨"B", "task B", none⟩]).executedInputs.getD 1
        ⟨"", "", none⟩).previous_result = none ∧
    ¬ ((sequential_thinking simulate_agent_execution
        [⟨"A", "task A", none⟩, ⟨"B", "task B", none⟩]).executedInputs.getD 1
        ⟨"", "", none⟩).previous_result
        = some (simulate_agent_execution ⟨"A", "task A", none⟩) ∧
    ((sequential_thinking simulate_agent_execution
        [⟨"A", "task A", none⟩, ⟨"B", "task B", none⟩]).finalSubtasks.getD 0
        ⟨"", "", none⟩).previous_result
      = some (simulate_agent_execution ⟨"A", "task A", none⟩) := by
  refine ⟨rfl, ?_, rfl⟩
  intro h
  exact Option.noConfusion h

/-- C2: the claim says a request whose analysis yields no subtasks fails
fast at the Orchestrator boundary with a typed `EmptySubtaskListError`,
before any strategy is entered and with no division by zero. The code has
no such error type: on the request "Say hello" the analysis yields an
empty subtask list and the `sequential` pattern, the sequential strategy
IS entered (returning an empty result list), and the run then dies inside
`synthesize_results` at `successful_agents / len(results)` with a
`ZeroDivisionError` (modelled as `none`). -/
theorem empty_subtasks_hit_division_by_zero :
    (analyze_request "Say hello").subtasks = [] ∧
    (analyze_request "Say hello").thinking_pattern = "sequential" ∧
    run_pattern "sequential" [] = some [] ∧
    synthesize_results [] = none ∧
    execute_ultrathink "Say hello" = none := by
  exact ⟨by decide, by decide, rfl, rfl, rfl⟩

/-- C7: the analyzer is a deterministic, side-effect-free, total function
of the request string: viewed as a state-passing operation on the
orchestrator''s registry, it returns the registry unchanged, a repeated
call with the same input yields an identical `AnalysisRecord`, and the
record does not depend on the registry contents at all. (Totality is by
construction: `analyze_request_st` is a total Lean function.) -/
theorem analyze_request_deterministic (registry : List (String × String)) (s : String) :
    (analyze_request_st registry s).2 = registry ∧
    (analyze_request_st (analyze_request_st registry s).2 s).1
      = (analyze_request_st registry s).1 ∧
    ∀ registry2, (analyze_request_st registry2 s).1 = (analyze_request_st registry s).1 :=
  ⟨rfl, rfl, fun _ => rfl⟩

/-- Net effect of `synthesize_results` on a non-empty result list. -/
theorem synthesize_results_eq (R : List ExecResult) (h : R ≠ []) :
    synthesize_results R = some
      { summary := "Análise completa realizada com sucesso"
        key_insights := R.map (fun r =>
          { source := r.agent, insight := r.result, artifacts := r.artifacts : Insight })
        recommendations :=
          if ((R.countP (fun r => r.status == "completed") : ℚ) / (R.length : ℚ)) > 8/10 then
            ["Alta confiança nos resultados - prosseguir com implementação"]
          else
            ["Confiança moderada - considerar análise adicional"]
        confidence_score :=
          (R.countP (fun r => r.status == "completed") : ℚ) / (R.length : ℚ) } := by
  unfold synthesize_results
  rw [if_neg]
  simpa using h

/-- C3: on every non-empty result list, synthesis succeeds and its
`confidence_score` is exactly (number of results with status
"completed") / (total results), a rational in `[0, 1]`. -/
theorem synthesize_confidence_ratio (R : List ExecResult) (h : R ≠ []) :
    ∃ rec, synthesize_results R = some rec ∧
      rec.confidence_score
        = (R.countP (fun r => r.status == "completed") : ℚ) / (R.length : ℚ) ∧
      0 ≤ rec.confidence_score ∧ rec.confidence_score ≤ 1 := by
  refine ⟨_, synthesize_results_eq R h, rfl, ?_, ?_⟩
  · apply div_nonneg <;> positivity
  · rw [div_le_one]
    · exact_mod_cast List.countP_le_length _
    · exact_mod_cast List.length_pos.mpr h

/-- Witness for C3 at the concrete one-element result list. -/
theorem synthesize_confidence_ratio_witness :
    ∃ rec, synthesize_results [⟨"A", "t", "r", 1/2, "completed", []⟩] = some rec ∧
      rec.confidence_score
        = (([⟨"A", "t", "r", 1/2, "completed", []⟩] : List ExecResult).countP
            (fun r => r.status == "completed") : ℚ)
          / (([⟨"A", "t", "r", 1/2, "completed", []⟩] : List ExecResult).length : ℚ) ∧
      0 ≤ rec.confidence_score ∧ rec.confidence_score ≤ 1 :=
  synthesize_confidence_ratio [⟨"A", "t", "r", 1/2, "completed", []⟩] (by decide)

/-- C6: the complexity score of a request is a step function of its word
count: 3 below 10 words, 5 below 30, 7 below 50, and 9 from 50 words on. -/
theorem complexity_thresholds (s : String) (n : Nat) (h : wordCount s = n) :
    (n < 10 → calculate_complexity s = 3) ∧
    (10 ≤ n → n < 30 → calculate_complexity s = 5) ∧
    (30 ≤ n → n < 50 → calculate_complexity s = 7) ∧
    (50 ≤ n → calculate_complexity s = 9) := by
  subst h
  unfold calculate_complexity
  refine ⟨fun h1 => ?_, fun h1 h2 => ?_, fun h1 h2 => ?_, fun h1 => ?_⟩ <;>
    dsimp only <;> split_ifs <;> omega

/-- Witness for C6 at a concrete 12-word request (middle band). -/
theorem complexity_thresholds_witness :
    wordCount "um dois três quatro cinco seis sete oito nove dez onze doze" = 12 ∧
    calculate_complexity "um dois três quatro cinco seis sete oito nove dez onze doze" = 5 :=
  ⟨by decide,
   (complexity_thresholds "um dois três quatro cinco seis sete oito nove dez onze doze" 12
      (by decide)).2.1 (by decide) (by decide)⟩

/-- Slots after the completion events of `order`: an index holds its
result exactly when it occurred in `order`. -/
theorem fillSlots_eq (execA : Subtask → ExecResult) (sts : List Subtask)
    (order : List Nat) (slots : Nat → Option ExecResult) (j : Nat) :
    fillSlots execA sts slots order j =
      if j ∈ order then some (execA (sts.getD j ⟨"", "", none⟩)) else slots j := by
  induction order generalizing slots with
  | nil => simp [fillSlots]
  | cons i rest ih =>
    simp only [fillSlots]
    rw [ih]
    by_cases hj : j ∈ rest
    · simp [hj]
    · by_cases hji : j = i
      · subst hji
        simp [hj]
      · simp [hj, hji]

/-- Collecting succeeds and is pointwise when every queried slot is set. -/
theorem collectSlots_eq (slots : Nat → Option ExecResult) (g : Nat → ExecResult)
    (xs : List Nat) (h : ∀ j ∈ xs, slots j = some (g j)) :
    collectSlots slots xs = some (xs.map g) := by
  induction xs with
  | nil => rfl
  | cons i rest ih =>
    have h1 : slots i = some (g i) := h i (by simp)
    have h2 : collectSlots slots rest = some (rest.map g) :=
      ih (fun j hj => h j (List.mem_cons_of_mem _ hj))
    simp [collectSlots, h1, h2]

/-- Reading a list back through in-range `getD` indices is the list map. -/
theorem range_map_getD (l : List Subtask) (f : Subtask → ExecResult) :
    (List.range l.length).map (fun j => f (l.getD j ⟨"", "", none⟩)) = l.map f := by
  induction l with
  | nil => rfl
  | cons a t ih =>
    simp only [List.length_cons, List.range_succ_eq_map, List.map_cons, List.map_map,
      List.getD_cons_zero]
    refine congrArg (f a :: ·) ?_
    rw [← ih]
    refine List.map_congr_left (fun j _ => ?_)
    simp [List.getD_cons_succ]

/-- C4: the Parallel strategy returns exactly one result per input
subtask, the i-th output is the execution of the i-th input, and the
completion-order model of `asyncio.gather` returns exactly the Parallel
output under EVERY completion schedule that finishes all tasks. -/
theorem parallel_order_independent (execA : Subtask → ExecResult)
    (sts : List Subtask) (order : List Nat)
    (hcover : ∀ i, i < sts.length → i ∈ order) :
    gatherModel execA sts order = some (parallel_thinking execA sts) ∧
    (parallel_thinking execA sts).length = sts.length ∧
    ∀ i (h1 : i < (parallel_thinking execA sts).length) (h2 : i < sts.length),
      (parallel_thinking execA sts).get ⟨i, h1⟩ = execA (sts.get ⟨i, h2⟩) := by
  refine ⟨?_, by simp [parallel_thinking], ?_⟩
  · unfold gatherModel
    rw [collectSlots_eq _ (fun j => execA (sts.getD j ⟨"", "", none⟩)) _ ?_]
    · rw [range_map_getD]
      rfl
    · intro j hj
      rw [fillSlots_eq, if_pos (hcover j (List.mem_range.mp hj))]
  · intro i h1 h2
    simp [parallel_thinking]

/-- Witness for C4 at two subtasks completing in reversed order. -/
theorem parallel_order_independent_witness :
    gatherModel simulate_agent_execution [⟨"A", "a", none⟩, ⟨"B", "b", none⟩] [1, 0]
      = some (parallel_thinking simulate_agent_execution [⟨"A", "a", none⟩, ⟨"B", "b", none⟩]) ∧
    (parallel_thinking simulate_agent_execution [⟨"A", "a", none⟩, ⟨"B", "b", none⟩]).length = 2 :=
  ⟨(parallel_order_independent simulate_agent_execution _ [1, 0]
      (by intro i hi; simp only [List.length_cons, List.length_nil] at hi
          simp only [List.mem_cons, List.not_mem_nil]; omega)).1,
   (parallel_order_independent simulate_agent_execution _ [1, 0]
      (by intro i hi; simp only [List.length_cons, List.length_nil] at hi
          simp only [List.mem_cons, List.not_mem_nil]; omega)).2.1⟩

/-- C5: on a non-empty subtask list the Hierarchical strategy executes the
head (primary) alone, runs the tail through the Parallel strategy, and
returns the primary''s result prepended (so total length equals input
length); and the tail of the output does not depend on how the primary is
executed: any executor agreeing with `execA` on the tail produces the same
tail output `parallel_thinking execA rest`. -/
theorem hierarchical_prepends_primary (execA execB : Subtask → ExecResult)
    (p : Subtask) (rest : List Subtask)
    (h : ∀ st ∈ rest, execB st = execA st) :
    hierarchical_thinking execA (p :: rest)
        = some (execA p :: parallel_thinking execA rest) ∧
    (execA p :: parallel_thinking execA rest).length = (p :: rest).length ∧
    (hierarchical_thinking execB (p :: rest)).map List.tail
        = some (parallel_thinking execA rest) := by
  refine ⟨rfl, by simp [parallel_thinking], ?_⟩
  simp only [hierarchical_thinking, Option.map_some, List.tail_cons]
  exact congrArg some (List.map_congr_left h)

/-- Witness for C5: primary `P` plus one sub-agent `A`, with a second
executor that disagrees with the reference one exactly on `P`. -/
theorem hierarchical_prepends_primary_witness :
    hierarchical_thinking simulate_agent_execution [⟨"P", "p", none⟩, ⟨"A", "a", none⟩]
        = some (simulate_agent_execution ⟨"P", "p", none⟩
            :: parallel_thinking simulate_agent_execution [⟨"A", "a", none⟩]) ∧
    ((hierarchical_thinking
        (fun st => if st.agent = "P" then ⟨"P", "p", "boom", 0, "failed", []⟩
                   else simulate_agent_execution st)
        [⟨"P", "p", none⟩, ⟨"A", "a", none⟩]).map List.tail
      = some (parallel_thinking simulate_agent_execution [⟨"A", "a", none⟩])) :=
  ⟨(hierarchical_prepends_primary simulate_agent_execution
      (fun st => if st.agent = "P" then ⟨"P", "p", "boom", 0, "failed", []⟩
                 else simulate_agent_execution st)
      ⟨"P", "p", none⟩ [⟨"A", "a", none⟩]
      (by intro st hst
          simp only [List.mem_cons, List.not_mem_nil, or_false] at hst
          subst hst
          rfl)).1,
   (hierarchical_prepends_primary simulate_agent_execution
      (fun st => if st.agent = "P" then ⟨"P", "p", "boom", 0, "failed", []⟩
                 else simulate_agent_execution st)
      ⟨"P", "p", none⟩ [⟨"A", "a", none⟩]
      (by intro st hst
          simp only [List.mem_cons, List.not_mem_nil, or_false] at hst
          subst hst
          rfl)).2.2⟩

/-- Net effect of one broadcast pass over channel entries with distinct
owners: the result is appended to every channel whose owner occurs in the
walked names and differs from the producer. -/
theorem putOthers_eq (producer : String) (r : ExecResult) (names : List String)
    (hnd : names.Nodup) (ch : String → List ExecResult) (a : String) :
    putOthers producer r names ch a =
      if a ∈ names ∧ a ≠ producer then ch a ++ [r] else ch a := by
  induction names generalizing ch with
  | nil => simp [putOthers]
  | cons b rest ih =>
    obtain ⟨hb, hrest⟩ := List.nodup_cons.mp hnd
    simp only [putOthers]
    rw [ih hrest]
    by_cases hab : a = b
    · subst hab
      have hnotin : a ∉ rest := hb
      by_cases hap : a = producer
      · simp [hap, hnotin]
      · simp [hap, hnotin]
    · simp only [List.mem_cons]
      by_cases hin : a ∈ rest
      · simp [hin, hab]
      · simp [hin, hab]

/-- The results returned by the mesh loop are the executions of the
subtasks in input order, whatever the channel state. -/
theorem meshLoop_results (execA : Subtask → ExecResult) (names : List String)
    (sts : List Subtask) (ch : String → List ExecResult) :
    (meshLoop execA names sts ch).1 = sts.map execA := by
  induction sts generalizing ch with
  | nil => rfl
  | cons st rest ih => simp [meshLoop, ih]

/-- Channel contents after the mesh loop: an owner occurring in `names`
accumulates, in input order, the results of every subtask produced by a
different agent; other names keep their initial queue. -/
theorem meshLoop_channels (execA : Subtask → ExecResult) (names : List String)
    (hnd : names.Nodup) (sts : List Subtask) (ch : String → List ExecResult)
    (a : String) :
    (meshLoop execA names sts ch).2 a =
      if a ∈ names then ch a ++ (sts.filter (fun st => st.agent != a)).map execA
      else ch a := by
  induction sts generalizing ch with
  | nil =>
    simp only [meshLoop, List.filter_nil, List.map_nil, List.append_nil]
    split <;> rfl
  | cons st rest ih =>
    simp only [meshLoop]
    rw [ih]
    rw [putOthers_eq _ _ _ hnd]
    by_cases ha : a ∈ names
    · by_cases hsa : st.agent = a
      · have : ¬ (a ≠ st.agent) := by simp [hsa.symm]
        simp [ha, hsa, this, List.filter_cons]
      · have hne : a ≠ st.agent := fun hh => hsa hh.symm
        simp [ha, hne, hsa, List.filter_cons, List.append_assoc]
    · simp [ha]

/-- C8: the Mesh strategy executes every subtask in input order (output
ordering and length match the input), after each execution the produced
result is put on the inbound channel of every other agent of the run, and
no channel ever holds a result produced by a subtask of its own agent:
every entry of agent `a`''s channel comes from a subtask whose agent
differs from `a`. -/
theorem mesh_broadcast_spec (execA : Subtask → ExecResult) (sts : List Subtask) :
    (mesh_thinking execA sts).1 = sts.map execA ∧
    (mesh_thinking execA sts).1.length = sts.length ∧
    (∀ a, a ∈ channelNames sts → ∀ i (h : i < sts.length),
      (sts.get ⟨i, h⟩).agent ≠ a →
        execA (sts.get ⟨i, h⟩) ∈ (mesh_thinking execA sts).2 a) ∧
    (∀ a r, r ∈ (mesh_thinking execA sts).2 a →
      ∃ st, st ∈ sts ∧ st.agent ≠ a ∧ r = execA st) := by
  have hch : ∀ a, (mesh_thinking execA sts).2 a =
      if a ∈ channelNames sts then (sts.filter (fun st => st.agent != a)).map execA
      else [] := by
    intro a
    have hnd : (channelNames sts).Nodup := by
      unfold channelNames
      exact List.nodup_dedup _
    unfold mesh_thinking
    rw [meshLoop_channels _ _ hnd _ _ a]
    split <;> simp
  refine ⟨?_, ?_, ?_, ?_⟩
  · unfold mesh_thinking
    exact meshLoop_results _ _ _ _
  · unfold mesh_thinking
    rw [meshLoop_results]
    simp
  · intro a ha i h hne
    rw [hch a, if_pos ha]
    refine List.mem_map_of_mem execA ?_
    rw [List.mem_filter]
    exact ⟨List.get_mem sts i h, by simpa using hne⟩
  · intro a r hr
    rw [hch a] at hr
    by_cases ha : a ∈ channelNames sts
    · rw [if_pos ha] at hr
      obtain ⟨st, hst, hrst⟩ := List.mem_map.mp hr
      rw [List.mem_filter] at hst
      exact ⟨st, hst.1, by simpa using hst.2, hrst.symm⟩
    · rw [if_neg ha] at hr
      exact absurd hr (List.not_mem_nil r)

/-- Witness for C8: with subtasks for agents `A` then `B`, agent `B`''s
channel receives the result of `A`''s subtask, and `A`''s own result list
is the executions in input order. -/
theorem mesh_broadcast_spec_witness :
    (mesh_thinking simulate_agent_execution [⟨"A", "a", none⟩, ⟨"B", "b", none⟩]).1
      = [⟨"A", "a", none⟩, ⟨"B", "b", none⟩].map simulate_agent_execution ∧
    simulate_agent_execution ⟨"A", "a", none⟩
      ∈ (mesh_thinking simulate_agent_execution [⟨"A", "a", none⟩, ⟨"B", "b", none⟩]).2 "B" :=
  ⟨(mesh_broadcast_spec simulate_agent_execution [⟨"A", "a", none⟩, ⟨"B", "b", none⟩]).1,
   (mesh_broadcast_spec simulate_agent_execution
      [⟨"A", "a", none⟩, ⟨"B", "b", none⟩]).2.2.1 "B" (by decide) 0 (by decide) (by decide)⟩

/-- C9: synthesis of a non-empty result list yields exactly one
recommendation: the "proceed" variant exactly when the confidence score
exceeds 8/10, the "gather more evidence" variant otherwise; and when two
of three results are completed (one failed), the confidence is 2/3 and
the "gather more evidence" variant is chosen. -/
theorem recommendation_policy (R : List ExecResult) (h : R ≠ []) :
    ∃ rec, synthesize_results R = some rec ∧
      rec.recommendations.length = 1 ∧
      (rec.confidence_score > 8/10 →
        rec.recommendations = ["Alta confiança nos resultados - prosseguir com implementação"]) ∧
      (¬ rec.confidence_score > 8/10 →
        rec.recommendations = ["Confiança moderada - considerar análise adicional"]) ∧
      (R.length = 3 → R.countP (fun r => r.status == "completed") = 2 →
        rec.confidence_score = 2/3 ∧
        rec.recommendations = ["Confiança moderada - considerar análise adicional"]) := by
  refine ⟨_, synthesize_results_eq R h, ?_, ?_, ?_, ?_⟩
  · dsimp only
    split <;> rfl
  · intro hgt
    dsimp only at hgt ⊢
    rw [if_pos hgt]
  · intro hle
    dsimp only at hle ⊢
    rw [if_neg hle]
  · intro h3 h2
    dsimp only
    rw [h2, h3]
    refine ⟨by norm_num, ?_⟩
    rw [if_neg (by norm_num)]

/-- Witness for C9 at a concrete three-element list with one failure. -/
theorem recommendation_policy_witness :
    ∃ rec, synthesize_results
        [⟨"A", "t", "r", 0, "completed", []⟩,
         ⟨"B", "t", "r", 0, "completed", []⟩,
         ⟨"C", "t", "r", 0, "failed", []⟩] = some rec ∧
      rec.recommendations.length = 1 ∧
      rec.confidence_score = 2/3 ∧
      rec.recommendations = ["Confiança moderada - considerar análise adicional"] := by
  obtain ⟨rec, h1, h2, _, _, h5⟩ := recommendation_policy
    [⟨"A", "t", "r", 0, "completed", []⟩,
     ⟨"B", "t", "r", 0, "completed", []⟩,
     ⟨"C", "t", "r", 0, "failed", []⟩] (by decide)
  obtain ⟨h6, h7⟩ := h5 (by decide) (by decide)
  exact ⟨rec, h1, h2, h6, h7⟩

/-- Synthesis of a non-empty, all-completed result list: full confidence
and the single "proceed" recommendation. -/
theorem synthesize_all_completed (R : List ExecResult) (h : R ≠ [])
    (hall : ∀ r ∈ R, r.status = "completed") :
    synthesize_results R = some
      { summary := "Análise completa realizada com sucesso"
        key_insights := R.map (fun r =>
          { source := r.agent, insight := r.result, artifacts := r.artifacts : Insight })
        recommendations := ["Alta confiança nos resultados - prosseguir com implementação"]
        confidence_score := 1 } := by
  have hcount : R.countP (fun r => r.status == "completed") = R.length :=
    List.countP_eq_length.mpr (fun r hr => by simp [hall r hr])
  have hlen : (R.length : ℚ) ≠ 0 := by
    have : R.length ≠ 0 := by simpa [List.length_eq_zero] using h
    exact_mod_cast this
  rw [synthesize_results_eq R h, hcount, div_self hlen]
  rw [if_pos (by norm_num : (1 : ℚ) > 8/10)]

/-- C10: the reference executor `simulate_agent_execution` returns status
"completed" on every subtask (it has no failure branch), and consequently
every orchestration run whose analysis yields a non-empty subtask list
produces an outcome in which every result is completed, the confidence
score is 1, and the single recommendation is the "proceed" variant (the
"gather more evidence" branch is not taken). -/
theorem reference_executor_always_completes (req : String)
    (h : (analyze_request req).subtasks ≠ []) :
    (∀ st, (simulate_agent_execution st).status = "completed") ∧
    ∃ oc, execute_ultrathink req = some oc ∧
      (∀ r ∈ oc.results, r.status = "completed") ∧
      oc.synthesis.confidence_score = 1 ∧
      oc.synthesis.recommendations
        = ["Alta confiança nos resultados - prosseguir com implementação"] := by
  refine ⟨fun st => rfl, ?_⟩
  by_cases hc : (hasSub (pyLower req) "análise" && hasSub (pyLower req) "tendências") = true
  · have ha : analyze_request req =
        { request := req
          complexity := calculate_complexity req
          required_agents := ["TrendingAgent", "AnalyzerAgent", "SynthesisAgent"]
          thinking_pattern := "parallel"
          subtasks := [⟨"TrendingAgent", "Buscar tendências atuais", none⟩,
                       ⟨"AnalyzerAgent", "Analisar dados quantitativos", none⟩,
                       ⟨"SynthesisAgent", "Sintetizar insights", none⟩] } := by
      unfold analyze_request
      rw [if_pos hc]
    have hall : ∀ r ∈ parallel_thinking simulate_agent_execution
        [⟨"TrendingAgent", "Buscar tendências atuais", none⟩,
         ⟨"AnalyzerAgent", "Analisar dados quantitativos", none⟩,
         ⟨"SynthesisAgent", "Sintetizar insights", none⟩], r.status = "completed" := by
      intro r hr
      obtain ⟨st, _, rfl⟩ := List.mem_map.mp hr
      rfl
    have hsyn := synthesize_all_completed
      (parallel_thinking simulate_agent_execution
        [⟨"TrendingAgent", "Buscar tendências atuais", none⟩,
         ⟨"AnalyzerAgent", "Analisar dados quantitativos", none⟩,
         ⟨"SynthesisAgent", "Sintetizar insights", none⟩]) (by decide) hall
    refine ⟨{ request := req
              analysis := analyze_request req
              results := parallel_thinking simulate_agent_execution
                [⟨"TrendingAgent", "Buscar tendências atuais", none⟩,
                 ⟨"AnalyzerAgent", "Analisar dados quantitativos", none⟩,
                 ⟨"SynthesisAgent", "Sintetizar insights", none⟩]
              synthesis :=
                { summary := "Análise completa realizada com sucesso"
                  key_insights := (parallel_thinking simulate_agent_execution
                    [⟨"TrendingAgent", "Buscar tendências atuais", none⟩,
                     ⟨"AnalyzerAgent", "Analisar dados quantitativos", none⟩,
                     ⟨"SynthesisAgent", "Sintetizar insights", none⟩]).map (fun r =>
                      { source := r.agent, insight := r.result, artifacts := r.artifacts })
                  recommendations :=
                    ["Alta confiança nos resultados - prosseguir com implementação"]
                  confidence_score := 1 } }, ?_, hall, rfl, rfl⟩
    unfold execute_ultrathink
    rw [ha]
    dsimp only
    rw [show run_pattern "parallel"
        [⟨"TrendingAgent", "Buscar tendências atuais", none⟩,
         ⟨"AnalyzerAgent", "Analisar dados quantitativos", none⟩,
         ⟨"SynthesisAgent", "Sintetizar insights", none⟩]
      = some (parallel_thinking simulate_agent_execution
        [⟨"TrendingAgent", "Buscar tendências atuais", none⟩,
         ⟨"AnalyzerAgent", "Analisar dados quantitativos", none⟩,
         ⟨"SynthesisAgent", "Sintetizar insights", none⟩]) from rfl]
    dsimp only
    rw [hsyn]
  · exfalso
    apply h
    unfold analyze_request
    rw [if_neg hc]

/-- Witness for C10 at a request containing both analyzer keywords. -/
theorem reference_executor_always_completes_witness :
    (∀ st, (simulate_agent_execution st).status = "completed") ∧
    ∃ oc, execute_ultrathink "análise de tendências em IA" = some oc ∧
      (∀ r ∈ oc.results, r.status = "completed") ∧
      oc.synthesis.confidence_score = 1 ∧
      oc.synthesis.recommendations
        = ["Alta confiança nos resultados - prosseguir com implementação"] :=
  reference_executor_always_completes "análise de tendências em IA" (by decide)
